import Mathlib

/-!
Shallow embedding of the acoustic fingerprint deduplication engine of
`src/server.py` (audio-copyright-detection).

Fingerprints are modelled as lists of real numbers (the JSON-serialized MFCC
vectors of the source, with exact real arithmetic in place of IEEE doubles).
The scipy distance functions are translated from their documented formulas:
`scipy.spatial.distance.cosine(u, v) = 1 - dot(u,v) / sqrt(dot(u,u) * dot(v,v))`
and `scipy.spatial.distance.euclidean(u, v) = sqrt (sum_i (u_i - v_i)^2)`.
-/

namespace AudioServer

/-- Dot product of two coefficient vectors, `np.dot(u, v)`. -/
def dot (u v : List ℝ) : ℝ := (List.zipWith (· * ·) u v).sum

/-- scipy cosine distance `1 - uv / sqrt(uu * vv)`.  (Recent scipy versions
clip the result to `[0, 2]`; over exact reals the quotient already lies in
`[-1, 1]` by Cauchy-Schwarz, so the clip is the identity and is omitted.) -/
noncomputable def cosineDistance (u v : List ℝ) : ℝ :=
  1 - dot u v / Real.sqrt (dot u u * dot v v)

/-- scipy euclidean distance: the 2-norm of `u - v`. -/
noncomputable def euclideanDistance (u v : List ℝ) : ℝ :=
  Real.sqrt ((List.zipWith (fun x y => (x - y) ^ 2) u v).sum)

/-- `compute_similarity` (src/server.py lines 68-78).

The Python function wraps the scipy calls in `try/except` and returns the
float `0` when an exception is raised; with mismatched vector lengths the
elementwise numpy operations raise `ValueError`, which is that path, so the
length-mismatch branch yields `some 0`.  When either vector is all zeros the
scipy cosine computes `0/0`, an IEEE NaN (a warning, not an exception); the
NaN propagates through the blend and is returned.  `none` models that NaN
result (no exact real corresponds to it); every later use of the result is a
`>= 0.50` comparison, which NaN fails, exactly as `none` is treated below.
Otherwise the returned value is
`cosine_sim * 0.6 + (1 / (1 + euclidean_dist)) * 0.4` with
`cosine_sim = 1 - cosineDistance`. -/
noncomputable def compute_similarity (vec1 vec2 : List ℝ) : Option ℝ :=
  if vec1.length ≠ vec2.length then some 0
  else if dot vec1 vec1 = 0 ∨ dot vec2 vec2 = 0 then none
  else some ((1 - cosineDistance vec1 vec2) * 0.6 +
             (1 / (1 + euclideanDistance vec1 vec2)) * 0.4)

/-- A corpus row as read back from the `audio_metadata` table: the stored
filename together with the result of `json.loads` on the stored `mfcc`
column (`none` when parsing raises, the per-entry `except` path of the
scan loop). -/
abbrev Entry := String × Option (List ℝ)

/-- The scan loop of `check_audio_similarity` (src/server.py lines 90-100):
for each stored row, parse the stored fingerprint (a parse failure is caught
per entry and the loop continues), compute the similarity, and return
`similarity * 100` on the first entry whose similarity is `>= 0.50`;
if the loop finishes, return `0`. -/
noncomputable def scan_corpus (v : List ℝ) : List Entry → ℝ
  | [] => 0
  | (_, none) :: rest => scan_corpus v rest
  | (_, some stored) :: rest =>
    match compute_similarity v stored with
    | none => scan_corpus v rest
    | some s => if s ≥ 0.50 then s * 100 else scan_corpus v rest

/-- `check_audio_similarity` (src/server.py lines 80-100): if extraction of
the candidate fingerprint failed (`get_mfcc` returned `None`), return `0`;
otherwise scan the stored corpus.  The candidate is modelled already parsed
(`json.loads` of the `get_mfcc` output round-trips the vector). -/
noncomputable def check_audio_similarity (candidate : Option (List ℝ)) (corpus : List Entry) : ℝ :=
  match candidate with
  | none => 0
  | some v => scan_corpus v corpus

/-- An entry qualifies when its stored fingerprint parses and its similarity
with the candidate reaches the `0.50` match threshold. -/
def Qualifies (v : List ℝ) (e : Entry) : Prop :=
  ∃ stored s, e.2 = some stored ∧ compute_similarity v stored = some s ∧ s ≥ 0.50

/-- Outcome of the admit/reject decision of the `upload_audio` route. -/
inductive UploadDecision
  | rejected
  | admitted
deriving DecidableEq

/-- The caller policy of `upload_audio` (src/server.py lines 145-149): the
reported similarity (a percentage) is compared against the rejection
threshold `75`; at or above it the saved file is removed and the submission
rejected, below it the pipeline proceeds to store the asset. -/
noncomputable def upload_policy (similarity : ℝ) : UploadDecision :=
  if similarity ≥ 75 then UploadDecision.rejected else UploadDecision.admitted

/-- A row of the `audio_metadata` table (id and timestamp columns are
DB-generated and play no role in the claims). -/
structure AudioRecord where
  filename : String
  mfcc : String
  ipfs_hash : String
  blockchain_tx : String
deriving DecidableEq

/-- `store_audio_metadata` (src/server.py lines 119-131): if MFCC extraction
of the file failed the function returns without touching the table;
otherwise it DELETEs every row with the given filename and INSERTs a fresh
row.  The table is modelled as the list of its rows in insertion order
(new rows are appended). -/
def store_audio_metadata (db : List AudioRecord) (filename : String)
    (mfcc_vector : Option String) (ipfs_hash tx_hash : String) : List AudioRecord :=
  match mfcc_vector with
  | none => db
  | some m =>
    db.filter (fun r => r.filename != filename) ++
      [{ filename := filename, mfcc := m, ipfs_hash := ipfs_hash, blockchain_tx := tx_hash }]

/-- Number of table rows carrying a given filename. -/
def recordCount (db : List AudioRecord) (f : String) : Nat :=
  db.countP (fun r => r.filename == f)

/-- One call to `store_audio_metadata`: filename, extracted MFCC (or `none`
on extraction failure), ipfs hash, transaction hash. -/
abbrev StoreOp := String × Option String × String × String

/-- A sequence of `store_audio_metadata` calls against an initially empty
`audio_metadata` table. -/
def run_stores (ops : List StoreOp) : List AudioRecord :=
  ops.foldl (fun db op => store_audio_metadata db op.1 op.2.1 op.2.2.1 op.2.2.2) []

/-! Feature extraction.  `librosa.load` and `librosa.feature.mfcc` are
external numeric routines; the model starts at the point where they have
produced the MFCC matrix, a list of coefficient channels (rows of the
`(n_mfcc, frames)` array), each channel a list of per-frame values. -/

/-- `np.mean` over one coefficient channel (axis=1 of the matrix). -/
noncomputable def mean (ch : List ℝ) : ℝ := ch.sum / ch.length

/-- `np.std` with default `ddof=0` squares to the mean squared deviation. -/
noncomputable def variance (ch : List ℝ) : ℝ :=
  (ch.map (fun x => (x - mean ch) ^ 2)).sum / ch.length

/-- `np.std` over one coefficient channel. -/
noncomputable def std (ch : List ℝ) : ℝ := Real.sqrt (variance ch)

/-- One entry of the normalized matrix: IEEE division can produce special
values, which exact reals cannot represent. -/
inductive MfccVal
  | val (x : ℝ)
  | nan
  | inf
  | neginf

/-- IEEE double division as numpy performs it: division by zero emits a
RuntimeWarning (not an exception) and yields `0/0 = NaN` or `±inf`. -/
noncomputable def ieee_div (x y : ℝ) : MfccVal :=
  if y = 0 then
    (if x = 0 then MfccVal.nan else if x > 0 then MfccVal.inf else MfccVal.neginf)
  else MfccVal.val (x / y)

/-- The normalization and flatten of `get_mfcc` (src/server.py lines 59-62):
`(mfcc - np.mean(mfcc, axis=1, keepdims=True)) / np.std(mfcc, axis=1, keepdims=True)`
followed by row-major `flatten` (channel-major, since rows are channels). -/
noncomputable def normalize_mfcc (mfcc : List (List ℝ)) : List MfccVal :=
  (mfcc.map (fun ch => ch.map (fun x => ieee_div (x - mean ch) (std ch)))).flatten

/-- `get_mfcc` (src/server.py lines 53-66) from the point where librosa has
produced the MFCC matrix.  The `except` branch (returning `None`) fires only
when an exception is raised; numpy division by a zero standard deviation
raises nothing (it warns and produces IEEE special values), so for every
decoded matrix the function returns the serialized normalized vector. -/
noncomputable def get_mfcc (mfcc : List (List ℝ)) : Option (List MfccVal) :=
  some (normalize_mfcc mfcc)

/-- The conditions under which the comparison of a corpus entry against the
candidate goes through an error path of the source: the stored `mfcc` column
fails to parse (per-entry `except` of the scan loop), the vector lengths
differ (numpy `ValueError`, caught inside `compute_similarity`), or a vector
is all zeros (scipy cosine computes `0/0`, an IEEE NaN). -/
def ComparisonErrorEntry (v : List ℝ) (e : Entry) : Prop :=
  e.2 = none ∨
    ∃ stored, e.2 = some stored ∧
      (v.length ≠ stored.length ∨ dot v v = 0 ∨ dot stored stored = 0)

/-- The blended-score formula exactly as the spec words it:
`score = 0.6 * cos + 0.4 * (1 / (1 + d))` with `cos = 1 - cosineDistance(a,b)`
and `d = euclideanDistance(a,b)`.  Stated separately from
`compute_similarity` so that the refinement between the source expression
and the spec expression is a theorem, not a definition. -/
noncomputable def spec_blended_score (a b : List ℝ) : ℝ :=
  0.6 * (1 - cosineDistance a b) + 0.4 * (1 / (1 + euclideanDistance a b))

section ScanLemmas

theorem scan_corpus_nil (v : List ℝ) : scan_corpus v [] = 0 := rfl

theorem scan_corpus_cons_none (v : List ℝ) (f : String) (rest : List Entry) :
    scan_corpus v ((f, none) :: rest) = scan_corpus v rest := rfl

theorem scan_corpus_cons_match (v : List ℝ) (f : String) (stored : List ℝ)
    (rest : List Entry) (s : ℝ) (hs : compute_similarity v stored = some s)
    (hq : s ≥ 0.50) :
    scan_corpus v ((f, some stored) :: rest) = s * 100 := by
  simp [scan_corpus, hs, hq]

theorem scan_corpus_cons_skip (v : List ℝ) (e : Entry) (rest : List Entry)
    (h : ¬ Qualifies v e) :
    scan_corpus v (e :: rest) = scan_corpus v rest := by
  obtain ⟨f, mf⟩ := e
  cases mf with
  | none => rfl
  | some stored =>
    cases hcs : compute_similarity v stored with
    | none => simp [scan_corpus, hcs]
    | some s =>
      have hns : ¬ s ≥ 0.50 := by
        intro hge
        exact h ⟨stored, s, rfl, hcs, hge⟩
      simp [scan_corpus, hcs, hns]

end ScanLemmas

section DotLemmas

theorem dot_nil : dot [] [] = 0 := rfl

theorem dot_cons (a : ℝ) (u : List ℝ) (b : ℝ) (v : List ℝ) :
    dot (a :: u) (b :: v) = a * b + dot u v := by
  simp [dot]

theorem dot_comm (u v : List ℝ) : dot u v = dot v u := by
  unfold dot
  rw [List.zipWith_comm_of_comm (· * ·) mul_comm]

theorem dot_self_nonneg (u : List ℝ) : 0 ≤ dot u u := by
  induction u with
  | nil => simp [dot]
  | cons a t ih =>
    rw [dot_cons]
    nlinarith [mul_self_nonneg a]

theorem dot_self_pos (u : List ℝ) (x : ℝ) (hx : x ∈ u) (hne : x ≠ 0) :
    0 < dot u u := by
  induction u with
  | nil => cases hx
  | cons a t ih =>
    rw [dot_cons]
    rcases List.mem_cons.mp hx with h | h
    · have ha : 0 < a * a := by
        subst h
        exact mul_self_pos.mpr hne
      nlinarith [dot_self_nonneg t]
    · nlinarith [ih h, mul_self_nonneg a]

theorem zip_sub_sq_self (u : List ℝ) :
    (List.zipWith (fun x y => (x - y) ^ 2) u u).sum = 0 := by
  induction u with
  | nil => rfl
  | cons a t ih => simp [ih]

theorem euclideanDistance_self (u : List ℝ) : euclideanDistance u u = 0 := by
  rw [euclideanDistance, zip_sub_sq_self, Real.sqrt_zero]

theorem cosineDistance_self (u : List ℝ) (h : dot u u ≠ 0) :
    cosineDistance u u = 0 := by
  rw [cosineDistance, Real.sqrt_mul_self (dot_self_nonneg u), div_self h]
  ring

theorem cosineDistance_symm (u v : List ℝ) :
    cosineDistance u v = cosineDistance v u := by
  unfold cosineDistance
  rw [dot_comm u v, mul_comm (dot u u)]

theorem euclideanDistance_symm (u v : List ℝ) :
    euclideanDistance u v = euclideanDistance v u := by
  unfold euclideanDistance
  rw [List.zipWith_comm_of_comm (fun x y => (x - y) ^ 2) (fun x y => by ring)]

/-- Shared evaluation: the similarity of a nonzero fingerprint with itself. -/
theorem compute_similarity_self (a : List ℝ) (x : ℝ) (hx : x ∈ a) (hne : x ≠ 0) :
    compute_similarity a a = some 1 := by
  have hnz : dot a a ≠ 0 := ne_of_gt (dot_self_pos a x hx hne)
  unfold compute_similarity
  rw [if_neg (by simp), if_neg (by simp [hnz])]
  rw [cosineDistance_self a hnz, euclideanDistance_self]
  norm_num

theorem compute_similarity_one_one : compute_similarity [1] [1] = some 1 :=
  compute_similarity_self [1] 1 (List.mem_singleton_self 1) one_ne_zero

/-- Shared evaluation: `compute_similarity([1], [4]) = 0.7`
(cosine similarity `1`, euclidean distance `3`, blend `0.6 + 0.4/4`). -/
theorem compute_similarity_one_four : compute_similarity [1] [4] = some 0.7 := by
  have h11 : dot [(1 : ℝ)] [1] = 1 := by norm_num [dot]
  have h14 : dot [(1 : ℝ)] [4] = 4 := by norm_num [dot]
  have h44 : dot [(4 : ℝ)] [4] = 16 := by norm_num [dot]
  have hsq : Real.sqrt (dot [(1 : ℝ)] [1] * dot [(4 : ℝ)] [4]) = 4 := by
    rw [h11, h44, show (1 : ℝ) * 16 = 4 ^ 2 by norm_num,
        Real.sqrt_sq (by norm_num : (0 : ℝ) ≤ 4)]
  have heu : euclideanDistance [1] [4] = 3 := by
    rw [euclideanDistance, show (List.zipWith (fun x y => (x - y) ^ 2)
          [(1 : ℝ)] [4]).sum = 3 ^ 2 by norm_num,
        Real.sqrt_sq (by norm_num : (0 : ℝ) ≤ 3)]
  unfold compute_similarity
  rw [if_neg (by simp), if_neg (by simp [h11, h44])]
  rw [cosineDistance, hsq, h14, heu]
  norm_num

end DotLemmas

section ScanStructure

/-- Each loop iteration either returns the (scaled) score of a qualifying
entry or moves on to the rest of the corpus. -/
theorem scan_corpus_cons_cases (v : List ℝ) (e : Entry) (rest : List Entry) :
    (∃ s, scan_corpus v (e :: rest) = s * 100 ∧ s ≥ 0.50 ∧ Qualifies v e) ∨
    (scan_corpus v (e :: rest) = scan_corpus v rest ∧ ¬ Qualifies v e) := by
  obtain ⟨f, mf⟩ := e
  cases mf with
  | none =>
    refine Or.inr ⟨rfl, ?_⟩
    rintro ⟨stored, s, h, -, -⟩
    cases h
  | some stored =>
    cases hcs : compute_similarity v stored with
    | none =>
      refine Or.inr ⟨by simp [scan_corpus, hcs], ?_⟩
      rintro ⟨st, s, h, h2, -⟩
      cases h
      rw [hcs] at h2
      cases h2
    | some s =>
      by_cases hq : s ≥ 0.50
      · exact Or.inl ⟨s, by simp [scan_corpus, hcs, hq], hq, stored, s, rfl, hcs, hq⟩
      · refine Or.inr ⟨by simp [scan_corpus, hcs, hq], ?_⟩
        rintro ⟨st, s2, h, h2, h3⟩
        cases h
        rw [hcs] at h2
        cases h2
        exact hq h3

theorem scan_corpus_zero_or_ge (v : List ℝ) (l : List Entry) :
    scan_corpus v l = 0 ∨ 50 ≤ scan_corpus v l := by
  induction l with
  | nil => exact Or.inl rfl
  | cons e rest ih =>
    rcases scan_corpus_cons_cases v e rest with ⟨s, heq, hs, -⟩ | ⟨heq, -⟩
    · right
      rw [heq]
      norm_num at hs
      linarith
    · rw [heq]
      exact ih

theorem scan_corpus_eq_zero_iff (v : List ℝ) (l : List Entry) :
    scan_corpus v l = 0 ↔ ∀ e ∈ l, ¬ Qualifies v e := by
  induction l with
  | nil => simp [scan_corpus]
  | cons e rest ih =>
    rcases scan_corpus_cons_cases v e rest with ⟨s, heq, hs, hq⟩ | ⟨heq, hq⟩
    · constructor
      · intro h0
        rw [heq] at h0
        norm_num at hs
        nlinarith
      · intro h
        exact absurd hq (h e (List.mem_cons_self e rest))
    · rw [heq, ih]
      constructor
      · intro h e2 he2
        rcases List.mem_cons.mp he2 with h3 | h3
        · subst h3
          exact hq
        · exact h e2 h3
      · intro h e2 he2
        exact h e2 (List.mem_cons_of_mem e he2)

theorem scan_corpus_append_skip (v : List ℝ) (pre rest : List Entry)
    (h : ∀ e ∈ pre, ¬ Qualifies v e) :
    scan_corpus v (pre ++ rest) = scan_corpus v rest := by
  induction pre with
  | nil => rfl
  | cons e t ih =>
    rw [List.cons_append,
        scan_corpus_cons_skip v e (t ++ rest) (h e (List.mem_cons_self e t))]
    exact ih (fun e2 he2 => h e2 (List.mem_cons_of_mem e he2))

end ScanStructure

section StoreLemmas

theorem countP_filter_ne_self (db : List AudioRecord) (f : String) :
    (db.filter (fun r => r.filename != f)).countP (fun r => r.filename == f) = 0 := by
  induction db with
  | nil => rfl
  | cons r t ih =>
    by_cases h : r.filename = f
    · simp [List.filter_cons, h, ih]
    · simp [List.filter_cons, h, ih, List.countP_cons]

theorem countP_filter_ne_other (db : List AudioRecord) (f g : String) (hgf : g ≠ f) :
    (db.filter (fun r => r.filename != f)).countP (fun r => r.filename == g) =
      db.countP (fun r => r.filename == g) := by
  induction db with
  | nil => rfl
  | cons r t ih =>
    by_cases h : r.filename = f
    · have hg : ¬ r.filename = g := fun hc => hgf (hc ▸ h.symm ▸ rfl)
      simp [List.filter_cons, h, ih, List.countP_cons, hg, Ne.symm hgf]
    · simp [List.filter_cons, h, ih, List.countP_cons]

/-- Effect of one successful `store_audio_metadata` call on row counts:
exactly one row for the stored filename, all other counts untouched. -/
theorem store_count (db : List AudioRecord) (f g m ipfs tx : String) :
    recordCount (store_audio_metadata db f (some m) ipfs tx) g =
      if g = f then 1 else recordCount db g := by
  unfold store_audio_metadata recordCount
  rw [List.countP_append]
  by_cases h : g = f
  · subst h
    rw [if_pos rfl, countP_filter_ne_self]
    simp [List.countP_cons]
  · rw [if_neg h, countP_filter_ne_other db f g h]
    simp [List.countP_cons, Ne.symm h]

theorem store_preserves_at_most_one (db : List AudioRecord)
    (hdb : ∀ g, recordCount db g ≤ 1) (f : String) (mv : Option String)
    (i t : String) :
    ∀ g, recordCount (store_audio_metadata db f mv i t) g ≤ 1 := by
  intro g
  cases mv with
  | none => exact hdb g
  | some m =>
    rw [store_count]
    by_cases h : g = f
    · simp [h]
    · simpa [h] using hdb g

theorem run_stores_at_most_one (ops : List StoreOp) (f : String) :
    recordCount (run_stores ops) f ≤ 1 := by
  suffices h : ∀ db, (∀ g, recordCount db g ≤ 1) → ∀ g,
      recordCount (ops.foldl
        (fun db op => store_audio_metadata db op.1 op.2.1 op.2.2.1 op.2.2.2) db) g ≤ 1 by
    exact h [] (fun g => by simp [recordCount]) f
  induction ops with
  | nil => exact fun db hdb g => hdb g
  | cons op t ih =>
    intro db hdb g
    exact ih _ (store_preserves_at_most_one db hdb op.1 op.2.1 op.2.2.1 op.2.2.2) g

end StoreLemmas

section NormalizationLemmas

theorem list_sum_nonneg_all_zero (l : List ℝ) (h0 : ∀ y ∈ l, 0 ≤ y)
    (hs : l.sum = 0) : ∀ y ∈ l, y = 0 := by
  induction l with
  | nil => simp
  | cons a t ih =>
    have hat : 0 ≤ a := h0 a (List.mem_cons_self a t)
    have htn : 0 ≤ t.sum :=
      List.sum_nonneg (fun y hy => h0 y (List.mem_cons_of_mem a hy))
    have hsum : a + t.sum = 0 := by simpa using hs
    have ha : a = 0 := by linarith
    intro y hy
    rcases List.mem_cons.mp hy with h2 | h2
    · exact h2.trans ha
    · exact ih (fun z hz => h0 z (List.mem_cons_of_mem a hz)) (by linarith) y h2

/-- A channel of zero variance is constant at its mean. -/
theorem eq_mean_of_variance_zero (ch : List ℝ) (hvar : variance ch = 0)
    (x : ℝ) (hx : x ∈ ch) : x = mean ch := by
  have hlen : (ch.length : ℝ) ≠ 0 := by
    have hnil : ch ≠ [] := List.ne_nil_of_mem hx
    simpa using hnil
  have hsum : (ch.map (fun y => (y - mean ch) ^ 2)).sum = 0 := by
    unfold variance at hvar
    exact (div_eq_zero_iff.mp hvar).resolve_right hlen
  have hterm : (x - mean ch) ^ 2 = 0 := by
    refine list_sum_nonneg_all_zero _ ?_ hsum _ (List.mem_map_of_mem _ hx)
    intro y hy
    obtain ⟨z, -, rfl⟩ := List.mem_map.mp hy
    positivity
  have : x - mean ch = 0 := by
    have := sq_eq_zero_iff.mp hterm
    exact this
  linarith

theorem std_eq_zero_of_variance_zero (ch : List ℝ) (hvar : variance ch = 0) :
    std ch = 0 := by
  rw [std, hvar, Real.sqrt_zero]

end NormalizationLemmas

/-- C1: for every candidate fingerprint and every corpus, the duplicate scan
returns on the first corpus entry in scan order whose similarity score
reaches the 0.50 match threshold, reporting that score (as a percentage,
score times 100, the form the source returns it in); the result is the same
for every choice of later entries, so the scan never examines them and never
returns the score of a later, more similar entry. -/
theorem C1_first_match_policy (v : List ℝ) (pre post : List Entry)
    (f : String) (stored : List ℝ) (s : ℝ)
    (hpre : ∀ e ∈ pre, ¬ Qualifies v e)
    (hs : compute_similarity v stored = some s)
    (hq : s ≥ 0.50) :
    check_audio_similarity (some v) (pre ++ (f, some stored) :: post) = s * 100 := by
  show scan_corpus v (pre ++ (f, some stored) :: post) = s * 100
  rw [scan_corpus_append_skip v pre _ hpre]
  exact scan_corpus_cons_match v f stored post s hs hq

/-- C1 witness: the first qualifying entry scores 0.7, a later entry would
score 1.0; the scan reports 70, not 100. -/
theorem C1_first_match_policy_witness :
    check_audio_similarity (some [1])
      ([("p", none)] ++ ("m", some [4]) :: [("z", some [1])]) = 0.7 * 100 := by
  apply C1_first_match_policy
  · intro e he
    rw [List.mem_singleton] at he
    subst he
    rintro ⟨stored, s, h, -, -⟩
    cases h
  · exact compute_similarity_one_four
  · norm_num

/-- C2: for equal-length fingerprint vectors (nonzero, so the scipy cosine
is defined and no NaN arises), compute_similarity returns exactly the spec
formula 0.6 * (1 - cosineDistance(a,b)) + 0.4 * (1 / (1 + euclideanDistance(a,b))). -/
theorem C2_blended_formula (a b : List ℝ) (hlen : a.length = b.length)
    (ha : dot a a ≠ 0) (hb : dot b b ≠ 0) :
    compute_similarity a b = some (spec_blended_score a b) := by
  unfold compute_similarity spec_blended_score
  rw [if_neg (by simp [hlen]), if_neg (by simp [ha, hb])]
  congr 1
  ring

/-- C2 witness at the concrete pair ([1], [4]). -/
theorem C2_blended_formula_witness :
    compute_similarity [1] [4] = some (spec_blended_score [1] [4]) := by
  apply C2_blended_formula
  · rfl
  · norm_num [dot]
  · norm_num [dot]

/-- C3: a corpus entry whose comparison against the candidate goes through
an error path (stored fingerprint fails to parse, vector lengths differ, or
the numeric result is indeterminate) never qualifies as a match, and the
scan result with that entry present equals the scan of the remaining
entries: the entry is skipped and the detection pass is never aborted. -/
theorem C3_comparison_error_skipped (v : List ℝ) (e : Entry) (rest : List Entry)
    (h : ComparisonErrorEntry v e) :
    ¬ Qualifies v e ∧
      check_audio_similarity (some v) (e :: rest) =
        check_audio_similarity (some v) rest := by
  have hnq : ¬ Qualifies v e := by
    rintro ⟨stored, s, he, hcs, hge⟩
    rcases h with h | ⟨st2, he2, herr⟩
    · rw [he] at h
      cases h
    · rw [he] at he2
      injection he2 with he3
      subst he3
      rcases herr with hlen | hz
      · unfold compute_similarity at hcs
        rw [if_pos hlen] at hcs
        injection hcs with h4
        rw [← h4] at hge
        norm_num at hge
      · by_cases hlen : v.length ≠ stored.length
        · unfold compute_similarity at hcs
          rw [if_pos hlen] at hcs
          injection hcs with h4
          rw [← h4] at hge
          norm_num at hge
        · unfold compute_similarity at hcs
          rw [if_neg hlen, if_pos hz] at hcs
          cases hcs
  exact ⟨hnq, scan_corpus_cons_skip v e rest hnq⟩

/-- C3 witness: a length-mismatched stored entry is skipped and the scan of
the remaining corpus decides the result. -/
theorem C3_comparison_error_skipped_witness :
    ¬ Qualifies [1] (("x", some [1, 2]) : Entry) ∧
      check_audio_similarity (some [1]) [("x", some [1, 2]), ("m", some [1])] =
        check_audio_similarity (some [1]) [("m", some [1])] := by
  apply C3_comparison_error_skipped
  exact Or.inr ⟨[1, 2], rfl, Or.inl (by norm_num)⟩

/-- C4 counterexample: the one-channel matrix [[1, 1]] has a zero-variance
channel, yet get_mfcc does not fail: numpy division by the zero standard
deviation is 0/0 per frame, so the function returns a fingerprint whose
coefficients are NaN, contradicting the claim that extraction fails with a
degenerate-signal error rather than producing a fingerprint. -/
theorem C4_counterexample :
    variance [1, 1] = 0 ∧ get_mfcc [[1, 1]] ≠ none ∧
      get_mfcc [[1, 1]] = some [MfccVal.nan, MfccVal.nan] := by
  have hm : mean [(1 : ℝ), 1] = 1 := by norm_num [mean]
  have hv : variance [(1 : ℝ), 1] = 0 := by norm_num [variance, hm]
  have hs : std [(1 : ℝ), 1] = 0 := by rw [std, hv, Real.sqrt_zero]
  refine ⟨hv, by simp [get_mfcc], ?_⟩
  simp [get_mfcc, normalize_mfcc, hm, hs, ieee_div]

/-- C4 amended: for every MFCC matrix containing a (nonempty) coefficient
channel of zero variance, get_mfcc does divide by the zero standard
deviation and still returns a fingerprint; the normalized vector contains
NaN where that channel was, rather than any extraction error being raised. -/
theorem C4_degenerate_yields_nan (m : List (List ℝ)) (ch : List ℝ)
    (hch : ch ∈ m) (hvar : variance ch = 0) (hne : ch ≠ []) :
    get_mfcc m ≠ none ∧ MfccVal.nan ∈ normalize_mfcc m := by
  constructor
  · simp [get_mfcc]
  · obtain ⟨x, hx⟩ := List.exists_mem_of_ne_nil ch hne
    have hxm : x = mean ch := eq_mean_of_variance_zero ch hvar x hx
    have hstd : std ch = 0 := std_eq_zero_of_variance_zero ch hvar
    have hdiv : ieee_div (x - mean ch) (std ch) = MfccVal.nan := by
      rw [hstd]
      unfold ieee_div
      rw [if_pos rfl, if_pos (by rw [hxm, sub_self])]
    unfold normalize_mfcc
    rw [List.mem_flatten]
    refine ⟨ch.map (fun y => ieee_div (y - mean ch) (std ch)), ?_, ?_⟩
    · exact List.mem_map_of_mem _ hch
    · rw [← hdiv]
      exact List.mem_map_of_mem _ hx

/-- C4 amended witness at the concrete matrix [[1, 1]]. -/
theorem C4_degenerate_yields_nan_witness :
    get_mfcc [[1, 1]] ≠ none ∧ MfccVal.nan ∈ normalize_mfcc [[1, 1]] := by
  apply C4_degenerate_yields_nan [[1, 1]] [1, 1]
  · exact List.mem_singleton_self _
  · norm_num [variance, mean]
  · simp

/-- C5: the duplicate scan returns 0 (NotDuplicate) in exactly these cases:
the corpus is empty, extraction of the candidate failed, or no corpus entry
reaches the 0.50 threshold; in particular an empty corpus always yields 0. -/
theorem C5_notduplicate_exactly (cand : Option (List ℝ)) (corpus : List Entry) :
    check_audio_similarity cand [] = 0 ∧
    check_audio_similarity none corpus = 0 ∧
    (∀ v, check_audio_similarity (some v) corpus = 0 ↔
        ∀ e ∈ corpus, ¬ Qualifies v e) := by
  refine ⟨?_, rfl, ?_⟩
  · cases cand with
    | none => rfl
    | some v => rfl
  · intro v
    exact scan_corpus_eq_zero_iff v corpus

/-- C6: the admit/reject decision uses two independent thresholds: a
submission whose reported similarity percentage is at least 50 is
duplicate-flagged (the report is nonzero), yet the caller admits it when it
is below the 75 rejection threshold and rejects it (discarding the file) at
or above 75. -/
theorem C6_two_threshold_policy (cand : Option (List ℝ)) (corpus : List Entry)
    (hflag : 50 ≤ check_audio_similarity cand corpus) :
    check_audio_similarity cand corpus ≠ 0 ∧
    (check_audio_similarity cand corpus < 75 →
      upload_policy (check_audio_similarity cand corpus) = UploadDecision.admitted) ∧
    (75 ≤ check_audio_similarity cand corpus →
      upload_policy (check_audio_similarity cand corpus) = UploadDecision.rejected) := by
  refine ⟨?_, ?_, ?_⟩
  · intro h
    rw [h] at hflag
    norm_num at hflag
  · intro hlt
    unfold upload_policy
    rw [if_neg (not_le.mpr hlt)]
  · intro hge
    unfold upload_policy
    rw [if_pos hge]

/-- C6 witness: a submission scoring 0.70 (reported as 70) is flagged yet
admitted by the caller policy. -/
theorem C6_two_threshold_policy_witness :
    upload_policy (check_audio_similarity (some [1]) [("a", some [4])]) =
      UploadDecision.admitted := by
  have hc : check_audio_similarity (some [1]) [("a", some [4])] = 70 := by
    show scan_corpus [1] [("a", some [4])] = 70
    rw [scan_corpus_cons_match [1] "a" [4] [] 0.7 compute_similarity_one_four
        (by norm_num)]
    norm_num
  have h := C6_two_threshold_policy (some [1]) [("a", some [4])] (by rw [hc]; norm_num)
  exact h.2.1 (by rw [hc]; norm_num)

/-- C7: the blended similarity of a well-formed (nonzero, NaN-free)
fingerprint with itself is exactly 1 in the exact-arithmetic model (the
cosine term is 1 and the euclidean distance 0, so the blend is
0.6 * 1 + 0.4 * 1). -/
theorem C7_self_similarity_one (a : List ℝ) (hne : ∃ x ∈ a, x ≠ 0) :
    compute_similarity a a = some 1 := by
  obtain ⟨x, hx, hxne⟩ := hne
  exact compute_similarity_self a x hx hxne

/-- C7 witness at the concrete fingerprint [2]. -/
theorem C7_self_similarity_one_witness : compute_similarity [2] [2] = some 1 :=
  C7_self_similarity_one [2] ⟨2, List.mem_singleton_self 2, by norm_num⟩

/-- C8: store_audio_metadata has delete-then-insert semantics on the
identifier: storing twice under the same filename with the same fingerprint
leaves exactly one row for that filename, and any sequence of store calls
against an initially empty table leaves at most one row per filename. -/
theorem C8_upsert_at_most_one :
    (∀ (db : List AudioRecord) (f m i1 t1 i2 t2 : String),
      recordCount (store_audio_metadata
        (store_audio_metadata db f (some m) i1 t1) f (some m) i2 t2) f = 1) ∧
    (∀ (ops : List StoreOp) (f : String), recordCount (run_stores ops) f ≤ 1) := by
  constructor
  · intro db f m i1 t1 i2 t2
    rw [store_count, if_pos rfl]
  · exact run_stores_at_most_one

/-- C9: the value returned by check_audio_similarity is either exactly 0 or
at least 50 (a qualifying similarity times 100); callers never observe a
positive value strictly below 50. -/
theorem C9_score_zero_or_at_least_fifty (cand : Option (List ℝ))
    (corpus : List Entry) :
    check_audio_similarity cand corpus = 0 ∨
      50 ≤ check_audio_similarity cand corpus := by
  cases cand with
  | none => exact Or.inl rfl
  | some v => exact scan_corpus_zero_or_ge v corpus

/-- C10: for equal-length vectors the blended score is symmetric in its two
arguments (the dot product, the norms and the squared differences are all
symmetric, and the error branches coincide). -/
theorem C10_similarity_symm (vec1 vec2 : List ℝ)
    (h : vec1.length = vec2.length) :
    compute_similarity vec1 vec2 = compute_similarity vec2 vec1 := by
  unfold compute_similarity
  rw [if_neg (by simp [h])]
  conv_rhs => rw [if_neg (show ¬ vec2.length ≠ vec1.length by simp [h])]
  by_cases hz : dot vec1 vec1 = 0 ∨ dot vec2 vec2 = 0
  · rw [if_pos hz]
    conv_rhs => rw [if_pos hz.symm]
  · rw [if_neg hz]
    conv_rhs =>
      rw [if_neg (show ¬ (dot vec2 vec2 = 0 ∨ dot vec1 vec1 = 0) from
            fun hc => hz hc.symm)]
    rw [cosineDistance_symm, euclideanDistance_symm]

/-- C10 witness at the concrete pair ([1, 2], [3, 4]). -/
theorem C10_similarity_symm_witness :
    compute_similarity [1, 2] [3, 4] = compute_similarity [3, 4] [1, 2] :=
  C10_similarity_symm [1, 2] [3, 4] rfl

end AudioServer
